import Mathlib

/-!
Shallow embedding of the `back-to-monitor` Cinnamon extension
(`src/extension.js`, class `BackToMonitorExtension`).

The tracker state owns two maps:
* `windowsSavedStates : Window → (Output → SavedStateEntry)` — pending saved
  states per window and output (`this._windowsSavedStates`);
* `monitorDisconnectedWindows : Output → Set Window` — windows stranded by a
  disconnection (`this._monitorDisconnectedWindows`);
plus the two boolean settings `rememberState` and `minimize`.

JavaScript `Map`s are modelled as association lists with insertion-order
semantics (`set` replaces in place or appends, `get` finds the first match,
`delete` filters), JavaScript `Set`s as insertion-ordered duplicate-free
lists.  The external collaborators (`global.display.list_windows`,
`windowSaver.isInside / allowsMove / save / restore`, `can_minimize`) are an
environment of pure functions; `callSafely` wrapping a fallible codec call is
an `Option` result (`none` = the call threw and was caught) for `save`, and a
recorded success flag, ignored by the tracker, for `restore`.
-/

namespace BackToMonitor

abbrev Window := Nat
abbrev Output := String
abbrev Time := Nat

structure MonitorRect where
  x : Int
  y : Int
  width : Int
  height : Int
deriving DecidableEq, Repr

/-- The geometry/state snapshot returned by `windowSaver.save`.  The tracker
only ever touches the `x` and `y` fields; everything else in the snapshot is
opaque to it and modelled by `payload`. -/
structure WindowState where
  x : Int
  y : Int
  payload : Nat
deriving DecidableEq, Repr

/-- `{windowState, time}` as stored in the per-output map of a window. -/
structure SavedStateEntry where
  windowState : WindowState
  time : Time
deriving DecidableEq, Repr

/-- `Map.get`: first entry with the given key. -/
def alGet {κ ν : Type} [DecidableEq κ] : List (κ × ν) → κ → Option ν
  | [], _ => none
  | (k', v) :: rest, k => if k' = k then some v else alGet rest k

/-- `Map.set`: replace in place if the key is present, else append. -/
def alSet {κ ν : Type} [DecidableEq κ] : List (κ × ν) → κ → ν → List (κ × ν)
  | [], k, v => [(k, v)]
  | (k', v') :: rest, k, v =>
    if k' = k then (k, v) :: rest else (k', v') :: alSet rest k v

/-- `Map.delete`: remove every entry with the given key. -/
def alDelete {κ ν : Type} [DecidableEq κ] (l : List (κ × ν)) (k : κ) : List (κ × ν) :=
  l.filter (fun p => !(decide (p.1 = k)))

/-- `Set.add`: append unless already present. -/
def setAdd (l : List Window) (w : Window) : List Window :=
  if w ∈ l then l else l ++ [w]

/-- Inner saved-states map of one window: `Output → SavedStateEntry`. -/
abbrev SavedStates := List (Output × SavedStateEntry)

structure TrackerState where
  windowsSavedStates : List (Window × SavedStates)
  monitorDisconnectedWindows : List (Output × List Window)
  rememberState : Bool
  minimize : Bool
deriving DecidableEq, Repr

/-- The maps as created in `enable()` with the default settings. -/
def initialState : TrackerState :=
  { windowsSavedStates := []
    monitorDisconnectedWindows := []
    rememberState := true
    minimize := true }

/-- External collaborators: the host window list and the `windowSaver` codec.
`save w = none` models a caught `CaptureError`; `restoreOk` tells whether a
`restore` call would succeed (`false` = caught `RestoreError`), a value the
tracker observes but never uses. -/
structure Env where
  windows : List Window
  isInside : Window → MonitorRect → Bool
  allowsMove : Window → Bool
  save : Window → Option WindowState
  canMinimize : Window → Bool
  restoreOk : Window → WindowState → MonitorRect → Bool

/-- `windowState.x -= monitorRect.x; windowState.y -= monitorRect.y`
(disconnect-time transform to monitor-relative coordinates). -/
def saveRelative (rect : MonitorRect) (ws : WindowState) : WindowState :=
  { ws with x := ws.x - rect.x, y := ws.y - rect.y }

/-- `windowState.x += monitorRect.x; windowState.y += monitorRect.y`
(load-time transform back to absolute coordinates). -/
def restoreAbsolute (rect : MonitorRect) (ws : WindowState) : WindowState :=
  { ws with x := ws.x + rect.x, y := ws.y + rect.y }

/-- The save block of `_onOutputDisconnected`: lazily create the inner map of
the window, then record the entry unless one for `output` already exists. -/
def recordSavedState (wss : List (Window × SavedStates)) (w : Window)
    (output : Output) (e : SavedStateEntry) : List (Window × SavedStates) :=
  let savedStates := (alGet wss w).getD []
  if (alGet savedStates output).isSome then wss
  else alSet wss w (alSet savedStates output e)

/-- One iteration of the window loop in `_onOutputDisconnected`. -/
def disconnectStep (env : Env) (output : Output) (rect : MonitorRect)
    (time : Time) (s : TrackerState) (w : Window) : TrackerState :=
  if env.isInside w rect then
    let s1 :=
      if s.rememberState && env.allowsMove w then
        match env.save w with
        | some ws0 =>
          let wss := recordSavedState s.windowsSavedStates w output
            ⟨saveRelative rect ws0, time⟩
          { s with windowsSavedStates := wss }
        | none => s
      else s
    let cur := (alGet s1.monitorDisconnectedWindows output).getD []
    let mdw := alSet s1.monitorDisconnectedWindows output (setAdd cur w)
    { s1 with monitorDisconnectedWindows := mdw }
  else s

/-- `_onOutputDisconnected`: install a fresh stranded set for `output`, then
loop over every window of the display. -/
def onOutputDisconnected (env : Env) (output : Output) (rect : MonitorRect)
    (time : Time) (s : TrackerState) : TrackerState :=
  let mdw := alSet s.monitorDisconnectedWindows output []
  let s0 := { s with monitorDisconnectedWindows := mdw }
  env.windows.foldl (disconnectStep env output rect time) s0

/-- `_onOutputConnected`: drop the stranded set of `output`. -/
def onOutputConnected (output : Output) (_rect : MonitorRect)
    (s : TrackerState) : TrackerState :=
  { s with monitorDisconnectedWindows := alDelete s.monitorDisconnectedWindows output }

/-- `_onMonitorUnloaded`: if a stranded set exists for `output`, drop it and
minimize its minimizable windows (when the `minimize` setting is on).
Returns the new state and the list of windows that were minimized. -/
def onMonitorUnloaded (env : Env) (output : Output) (_rect : MonitorRect)
    (s : TrackerState) : TrackerState × List Window :=
  match alGet s.monitorDisconnectedWindows output with
  | none => (s, [])
  | some disconnectedWindows =>
    ({ s with monitorDisconnectedWindows := alDelete s.monitorDisconnectedWindows output },
     disconnectedWindows.filter (fun w => s.minimize && env.canMinimize w))

/-- The per-window mutation of `_onMonitorLoaded`: if an entry for `output`
exists, forget it and every other entry whose time is ≥ its time (the code
deletes those with `otherState.time >= state.time`, keeping times `<`). -/
def loadedInner (output : Output) (inner : SavedStates) : SavedStates :=
  match alGet inner output with
  | none => inner
  | some state =>
    (alDelete inner output).filter (fun q => decide (q.2.time < state.time))

/-- The restore call of `_onMonitorLoaded` for one window: emitted only when
an entry for `output` exists, with the state transformed to absolute
coordinates; the recorded `Bool` is the `callSafely` outcome, which the
tracker ignores. -/
def loadedRestore (env : Env) (output : Output) (rect : MonitorRect)
    (w : Window) (inner : SavedStates) : Option (Window × WindowState × Bool) :=
  (alGet inner output).map (fun state =>
    let windowState := restoreAbsolute rect state.windowState
    (w, windowState, env.restoreOk w windowState rect))

/-- `_onMonitorLoaded`: for every window of `windowsSavedStates`, resolve its
pending entry for `output` (if any) and restore it.  Returns the new state and
the emitted restore calls, in window order. -/
def onMonitorLoaded (env : Env) (output : Output) (rect : MonitorRect)
    (s : TrackerState) : TrackerState × List (Window × WindowState × Bool) :=
  let wss := s.windowsSavedStates.map (fun p => (p.1, loadedInner output p.2))
  ({ s with windowsSavedStates := wss },
   s.windowsSavedStates.filterMap (fun p => loadedRestore env output rect p.1 p.2))

/-- `_onWindowRemoved`: drop the saved states of the window and remove it from
every stranded set. -/
def onWindowRemoved (w : Window) (s : TrackerState) : TrackerState :=
  let mdw := s.monitorDisconnectedWindows.map
    (fun p => (p.1, p.2.filter (fun v => !(decide (v = w)))))
  { s with
    windowsSavedStates := alDelete s.windowsSavedStates w
    monitorDisconnectedWindows := mdw }

/-- `_onRememberStateChange`: the settings binding has already written the new
value when the callback runs; when it became `false`, clear all saved
states. -/
def onRememberStateChange (newValue : Bool) (s : TrackerState) : TrackerState :=
  let s1 := { s with rememberState := newValue }
  if !newValue then { s1 with windowsSavedStates := [] } else s1

/-- The pending saved state of window `w` for output `o` (missing window =
missing entry). -/
def getEntry (wss : List (Window × SavedStates)) (w : Window) (o : Output) :
    Option SavedStateEntry :=
  alGet ((alGet wss w).getD []) o

/-- The invariant of §3 of the spec: a window appears in `WindowsSavedStates`
only if it has at least one pending saved state (no empty inner map). -/
def NonEmptyStates (s : TrackerState) : Prop :=
  ∀ p ∈ s.windowsSavedStates, p.2 ≠ []

instance (s : TrackerState) : Decidable (NonEmptyStates s) :=
  inferInstanceAs (Decidable (∀ p ∈ s.windowsSavedStates, p.2 ≠ []))

/-- Tracker states reachable from `enable()` through the event handlers. -/
inductive Reachable : TrackerState → Prop where
  | init : Reachable initialState
  | disconnected (env : Env) (o : Output) (rect : MonitorRect) (t : Time)
      (s : TrackerState) : Reachable s →
      Reachable (onOutputDisconnected env o rect t s)
  | connected (o : Output) (rect : MonitorRect) (s : TrackerState) :
      Reachable s → Reachable (onOutputConnected o rect s)
  | unloaded (env : Env) (o : Output) (rect : MonitorRect) (s : TrackerState) :
      Reachable s → Reachable (onMonitorUnloaded env o rect s).1
  | loaded (env : Env) (o : Output) (rect : MonitorRect) (s : TrackerState) :
      Reachable s → Reachable (onMonitorLoaded env o rect s).1
  | removed (w : Window) (s : TrackerState) : Reachable s →
      Reachable (onWindowRemoved w s)
  | rememberChanged (b : Bool) (s : TrackerState) : Reachable s →
      Reachable (onRememberStateChange b s)

/-- A one-window display whose window sits at absolute `(100, 50)` and where
every codec call succeeds. -/
def sampleEnv : Env :=
  { windows := [1]
    isInside := fun _ _ => true
    allowsMove := fun _ => true
    save := fun _ => some ⟨100, 50, 7⟩
    canMinimize := fun _ => true
    restoreOk := fun _ _ _ => true }

/-- `sampleEnv` with the state capture of window `1` failing
(`CaptureError`, caught by `callSafely`). -/
def sampleEnvFailingSave : Env :=
  { sampleEnv with save := fun v => if v = 1 then none else sampleEnv.save v }

def rectA : MonitorRect := ⟨0, 0, 1920, 1080⟩

def rectB : MonitorRect := ⟨1920, 0, 1920, 1080⟩

/-- Saved states of one window: an entry for output `"A"` at time 1 and one
for output `"B"` at time 2. -/
def innerAB : SavedStates := [("A", ⟨⟨10, 20, 0⟩, 1⟩), ("B", ⟨⟨30, 40, 0⟩, 2⟩)]

/-- A tracker state in which window `1` has pending saved states for output
`"A"` (time 1) and output `"B"` (time 2). -/
def twoSavesState : TrackerState :=
  { windowsSavedStates := [(1, innerAB)]
    monitorDisconnectedWindows := [("A", [1, 2]), ("B", [1])]
    rememberState := true
    minimize := true }

/-- Saved states of one window captured in a single disconnect event: entries
for outputs `"A"` and `"B"` with the same timestamp 5. -/
def twinSavesInner : SavedStates := [("A", ⟨⟨1, 2, 0⟩, 5⟩), ("B", ⟨⟨3, 4, 0⟩, 5⟩)]

/-- A tracker state in which window `2` has two equal-timestamp pending saved
states. -/
def twinSavesState : TrackerState :=
  { windowsSavedStates := [(2, twinSavesInner)]
    monitorDisconnectedWindows := []
    rememberState := true
    minimize := true }

/-! ### Association-list and set lemmas -/

theorem alGet_alSet_self {κ ν : Type} [DecidableEq κ] (l : List (κ × ν)) (k : κ) (v : ν) :
    alGet (alSet l k v) k = some v := by
  induction l with
  | nil => simp [alSet, alGet]
  | cons p rest ih =>
    obtain ⟨k', v'⟩ := p
    by_cases h : k' = k
    · simp [alSet, h, alGet]
    · simp [alSet, h, alGet, ih]

theorem alGet_alSet_ne {κ ν : Type} [DecidableEq κ] (l : List (κ × ν)) (k k' : κ) (v : ν)
    (h : k' ≠ k) : alGet (alSet l k v) k' = alGet l k' := by
  have hne : ¬k = k' := fun hh => h hh.symm
  induction l with
  | nil => simp [alSet, alGet, hne]
  | cons p rest ih =>
    obtain ⟨k₀, v₀⟩ := p
    by_cases hk : k₀ = k
    · subst hk
      simp [alSet, alGet, hne]
    · simp [alSet, hk, alGet, ih]

theorem alGet_alDelete_self {κ ν : Type} [DecidableEq κ] (l : List (κ × ν)) (k : κ) :
    alGet (alDelete l k) k = none := by
  induction l with
  | nil => simp [alDelete, alGet]
  | cons p rest ih =>
    obtain ⟨k₀, v₀⟩ := p
    by_cases hk : k₀ = k
    · simpa [alDelete, hk] using ih
    · simpa [alDelete, alGet, hk] using ih

theorem alGet_alDelete_ne {κ ν : Type} [DecidableEq κ] (l : List (κ × ν)) (k k' : κ)
    (h : k' ≠ k) : alGet (alDelete l k) k' = alGet l k' := by
  have hne : ¬k = k' := fun hh => h hh.symm
  induction l with
  | nil => simp [alDelete, alGet]
  | cons p rest ih =>
    obtain ⟨k₀, v₀⟩ := p
    by_cases hk : k₀ = k
    · subst hk
      calc alGet (alDelete ((k₀, v₀) :: rest) k₀) k'
          = alGet (alDelete rest k₀) k' := by simp [alDelete, List.filter]
        _ = alGet rest k' := ih
        _ = alGet ((k₀, v₀) :: rest) k' := by simp [alGet, hne]
    · by_cases hk' : k₀ = k'
      · subst hk'
        simp [alDelete, List.filter, alGet, hk]
      · calc alGet (alDelete ((k₀, v₀) :: rest) k) k'
            = alGet (alDelete rest k) k' := by simp [alDelete, List.filter, hk, alGet, hk']
          _ = alGet rest k' := ih
          _ = alGet ((k₀, v₀) :: rest) k' := by simp [alGet, hk']

theorem alGet_mapVal {κ ν ν' : Type} [DecidableEq κ] (f : ν → ν') (l : List (κ × ν))
    (k : κ) : alGet (l.map (fun p => (p.1, f p.2))) k = (alGet l k).map f := by
  induction l with
  | nil => simp [alGet]
  | cons p rest ih =>
    obtain ⟨k₀, v₀⟩ := p
    by_cases hk : k₀ = k
    · subst hk
      simp [alGet]
    · simp [alGet, hk, ih]

theorem alSet_ne_nil {κ ν : Type} [DecidableEq κ] (l : List (κ × ν)) (k : κ) (v : ν) :
    alSet l k v ≠ [] := by
  cases l with
  | nil => simp [alSet]
  | cons p rest =>
    obtain ⟨k₀, v₀⟩ := p
    by_cases hk : k₀ = k <;> simp [alSet, hk]

theorem mem_alSet {κ ν : Type} [DecidableEq κ] {l : List (κ × ν)} {k : κ} {v : ν}
    {p : κ × ν} (h : p ∈ alSet l k v) : p = (k, v) ∨ p ∈ l := by
  induction l with
  | nil => simpa [alSet] using h
  | cons q rest ih =>
    obtain ⟨k₀, v₀⟩ := q
    by_cases hk : k₀ = k
    · simp only [alSet, hk, if_true, List.mem_cons] at h
      rcases h with h | h
      · exact Or.inl h
      · exact Or.inr (List.mem_cons_of_mem _ h)
    · simp only [alSet, hk, if_false, List.mem_cons] at h
      rcases h with h | h
      · refine Or.inr ?_
        rw [h]
        exact List.mem_cons_self _ _
      · rcases ih h with h' | h'
        · exact Or.inl h'
        · exact Or.inr (List.mem_cons_of_mem _ h')

theorem alGet_none_of_not_mem_keys {κ ν : Type} [DecidableEq κ] {l : List (κ × ν)} {k : κ}
    (h : k ∉ l.map Prod.fst) : alGet l k = none := by
  induction l with
  | nil => simp [alGet]
  | cons p rest ih =>
    obtain ⟨k₀, v₀⟩ := p
    simp only [List.map_cons, List.mem_cons] at h
    push_neg at h
    simp [alGet, Ne.symm h.1, ih h.2]

theorem alGet_filter_none {κ ν : Type} [DecidableEq κ] {l : List (κ × ν)} {k : κ}
    (p : κ × ν → Bool) (h : alGet l k = none) : alGet (l.filter p) k = none := by
  induction l with
  | nil => simp [alGet]
  | cons q rest ih =>
    obtain ⟨k₀, v₀⟩ := q
    by_cases hk : k₀ = k
    · simp [alGet, hk] at h
    · simp only [alGet, hk, if_false] at h
      by_cases hp : p (k₀, v₀) <;> simp [List.filter, hp, alGet, hk, ih h]

theorem alGet_filter_of_nodup {κ ν : Type} [DecidableEq κ] {l : List (κ × ν)}
    (hnd : (l.map Prod.fst).Nodup) (p : κ × ν → Bool) (k : κ) :
    alGet (l.filter p) k = (alGet l k).bind (fun v => if p (k, v) then some v else none) := by
  induction l with
  | nil => simp [alGet]
  | cons q rest ih =>
    obtain ⟨k₀, v₀⟩ := q
    simp only [List.map_cons, List.nodup_cons] at hnd
    by_cases hk : k₀ = k
    · subst hk
      by_cases hp : p (k₀, v₀)
      · simp [List.filter, hp, alGet]
      · have hrest : alGet rest k₀ = none :=
          alGet_none_of_not_mem_keys hnd.1
        simp [List.filter, hp, alGet, alGet_filter_none p hrest]
    · by_cases hp : p (k₀, v₀) <;> simp [List.filter, hp, alGet, hk, ih hnd.2]

theorem alDelete_keys_nodup {κ ν : Type} [DecidableEq κ] {l : List (κ × ν)}
    (hnd : (l.map Prod.fst).Nodup) (k : κ) : ((alDelete l k).map Prod.fst).Nodup := by
  have hsub : List.Sublist ((alDelete l k).map Prod.fst) (l.map Prod.fst) :=
    List.Sublist.map _ (List.filter_sublist l)
  exact hnd.sublist hsub

theorem mem_setAdd (l : List Window) (w v : Window) :
    v ∈ setAdd l w ↔ v ∈ l ∨ v = w := by
  unfold setAdd
  by_cases h : w ∈ l
  · simp only [h, if_true]
    constructor
    · exact Or.inl
    · rintro (hv | rfl)
      · exact hv
      · exact h
  · simp [h]

theorem foldl_preserve {α β : Type} {P : α → Prop} (f : α → β → α)
    (hf : ∀ t u, P t → P (f t u)) : ∀ (l : List β) (t : α), P t → P (l.foldl f t)
  | [], _, h => h
  | u :: rest, t, h => foldl_preserve f hf rest (f t u) (hf t u h)

/-! ### Lemmas on `recordSavedState` and `disconnectStep` -/

theorem recordSavedState_alGet_ne (wss : List (Window × SavedStates)) (w : Window)
    (output : Output) (e : SavedStateEntry) (v : Window) (h : v ≠ w) :
    alGet (recordSavedState wss w output e) v = alGet wss v := by
  unfold recordSavedState
  by_cases hg : (alGet ((alGet wss w).getD []) output).isSome
  · simp [hg]
  · simp only [hg, Bool.false_eq_true, if_false]
    exact alGet_alSet_ne _ _ _ _ h

theorem recordSavedState_of_isSome (wss : List (Window × SavedStates)) (w : Window)
    (output : Output) (e : SavedStateEntry)
    (h : (getEntry wss w output).isSome) : recordSavedState wss w output e = wss := by
  unfold recordSavedState
  simp only [getEntry] at h
  simp [h]

theorem recordSavedState_getEntry_cases (wss : List (Window × SavedStates)) (u : Window)
    (o0 : Output) (et : SavedStateEntry) (w : Window) (o : Output) (e : SavedStateEntry)
    (h : getEntry (recordSavedState wss u o0 et) w o = some e) :
    getEntry wss w o = some e ∨ (w = u ∧ o = o0 ∧ e = et) := by
  unfold recordSavedState at h
  by_cases hg : (alGet ((alGet wss u).getD []) o0).isSome
  · simp only [hg, if_true] at h
    exact Or.inl h
  · simp only [hg, Bool.false_eq_true, if_false] at h
    by_cases hw : w = u
    · subst hw
      unfold getEntry at h
      rw [alGet_alSet_self] at h
      simp only [Option.getD_some] at h
      by_cases ho : o = o0
      · subst ho
        rw [alGet_alSet_self] at h
        exact Or.inr ⟨rfl, rfl, (Option.some_inj.mp h).symm⟩
      · rw [alGet_alSet_ne _ _ _ _ ho] at h
        exact Or.inl h
    · unfold getEntry at h ⊢
      rw [alGet_alSet_ne _ _ _ _ hw] at h
      exact Or.inl h

theorem disconnectStep_eq (env : Env) (output : Output) (rect : MonitorRect) (time : Time)
    (s : TrackerState) (w : Window) :
    disconnectStep env output rect time s w =
      if env.isInside w rect then
        { s with
          windowsSavedStates :=
            (if s.rememberState && env.allowsMove w then
              match env.save w with
              | some ws0 =>
                recordSavedState s.windowsSavedStates w output ⟨saveRelative rect ws0, time⟩
              | none => s.windowsSavedStates
            else s.windowsSavedStates)
          monitorDisconnectedWindows :=
            alSet s.monitorDisconnectedWindows output
              (setAdd ((alGet s.monitorDisconnectedWindows output).getD []) w) }
      else s := by
  unfold disconnectStep
  by_cases h1 : env.isInside w rect = true
  · simp only [h1, if_true]
    by_cases h2 : (s.rememberState && env.allowsMove w) = true
    · simp only [h2, if_true]
      cases env.save w <;> rfl
    · simp only [Bool.not_eq_true] at h2
      simp only [h2, Bool.false_eq_true, if_false]
  · simp only [Bool.not_eq_true] at h1
    simp [h1]

theorem disconnectStep_rememberState (env : Env) (output : Output) (rect : MonitorRect)
    (time : Time) (s : TrackerState) (w : Window) :
    (disconnectStep env output rect time s w).rememberState = s.rememberState := by
  rw [disconnectStep_eq]
  by_cases h : env.isInside w rect = true <;> simp [h]

theorem disconnectStep_mdw (env : Env) (output : Output) (rect : MonitorRect)
    (time : Time) (s : TrackerState) (w : Window) :
    (disconnectStep env output rect time s w).monitorDisconnectedWindows =
      if env.isInside w rect then
        alSet s.monitorDisconnectedWindows output
          (setAdd ((alGet s.monitorDisconnectedWindows output).getD []) w)
      else s.monitorDisconnectedWindows := by
  rw [disconnectStep_eq]
  by_cases h : env.isInside w rect = true <;> simp [h]

theorem disconnectStep_wss_alGet_ne (env : Env) (output : Output) (rect : MonitorRect)
    (time : Time) (s : TrackerState) (w v : Window) (h : v ≠ w) :
    alGet (disconnectStep env output rect time s w).windowsSavedStates v =
      alGet s.windowsSavedStates v := by
  rw [disconnectStep_eq]
  by_cases h1 : env.isInside w rect = true
  · simp only [h1, if_true]
    by_cases h2 : (s.rememberState && env.allowsMove w) = true
    · simp only [h2, if_true]
      cases env.save w with
      | none => rfl
      | some ws0 => exact recordSavedState_alGet_ne _ _ _ _ _ h
    · simp only [h2, Bool.false_eq_true, if_false]
  · simp [h1]

theorem disconnectStep_getEntry_some (env : Env) (output : Output) (rect : MonitorRect)
    (time : Time) (s : TrackerState) (u w : Window) (e : SavedStateEntry)
    (h : getEntry s.windowsSavedStates w output = some e) :
    getEntry (disconnectStep env output rect time s u).windowsSavedStates w output = some e := by
  by_cases hw : w = u
  · subst hw
    rw [disconnectStep_eq]
    by_cases h1 : env.isInside w rect = true
    · simp only [h1, if_true]
      by_cases h2 : (s.rememberState && env.allowsMove w) = true
      · simp only [h2, if_true]
        cases env.save w with
        | none => exact h
        | some ws0 =>
          have : recordSavedState s.windowsSavedStates w output ⟨saveRelative rect ws0, time⟩
              = s.windowsSavedStates :=
            recordSavedState_of_isSome _ _ _ _ (by rw [h]; rfl)
          simpa [getEntry, this] using h
      · simpa [h2] using h
    · simpa [h1] using h
  · unfold getEntry at h ⊢
    rw [disconnectStep_wss_alGet_ne _ _ _ _ _ _ _ hw]
    exact h

/-! ### Claim C9, C7, C8, C5 -/

/-- Claim C9: when `rememberState` changes to `false`, `WindowsSavedStates` becomes
empty while `MonitorDisconnectedWindows` is left exactly unchanged; when it
changes to `true`, neither map is modified. -/
theorem remember_toggle_clears_saved_states (s : TrackerState) :
    (onRememberStateChange false s).windowsSavedStates = []
    ∧ (onRememberStateChange false s).monitorDisconnectedWindows =
        s.monitorDisconnectedWindows
    ∧ (onRememberStateChange true s).windowsSavedStates = s.windowsSavedStates
    ∧ (onRememberStateChange true s).monitorDisconnectedWindows =
        s.monitorDisconnectedWindows :=
  ⟨rfl, rfl, rfl, rfl⟩

/-- Claim C7: after `onOutputDisconnected O`, `onOutputConnected O`,
`onMonitorUnloaded O`, no window is minimized — the connect event removed
the stranded set of `O`, so the unload handler finds none (and changes nothing). -/
theorem no_minimize_after_reconnect (env : Env) (output : Output)
    (r1 r2 r3 : MonitorRect) (time : Time) (s : TrackerState) :
    (onMonitorUnloaded env output r3
        (onOutputConnected output r2 (onOutputDisconnected env output r1 time s))).2 = []
    ∧ (onMonitorUnloaded env output r3
        (onOutputConnected output r2 (onOutputDisconnected env output r1 time s))).1 =
      onOutputConnected output r2 (onOutputDisconnected env output r1 time s) := by
  have hget : alGet (onOutputConnected output r2
      (onOutputDisconnected env output r1 time s)).monitorDisconnectedWindows output = none := by
    unfold onOutputConnected
    exact alGet_alDelete_self _ _
  unfold onMonitorUnloaded
  rw [hget]
  exact ⟨rfl, rfl⟩

/-- Claim C8: after `onWindowRemoved w`, the window has no saved-states entry and
belongs to no stranded set, while entries of every other window are kept in
both maps. -/
theorem window_removed_cleanup (w : Window) (s : TrackerState) :
    alGet (onWindowRemoved w s).windowsSavedStates w = none
    ∧ (∀ o l, alGet (onWindowRemoved w s).monitorDisconnectedWindows o = some l → w ∉ l)
    ∧ (∀ v, v ≠ w →
        alGet (onWindowRemoved w s).windowsSavedStates v = alGet s.windowsSavedStates v)
    ∧ (∀ o v, v ≠ w →
        (v ∈ (alGet (onWindowRemoved w s).monitorDisconnectedWindows o).getD [] ↔
          v ∈ (alGet s.monitorDisconnectedWindows o).getD [])) := by
  have hmdw : ∀ o, alGet (onWindowRemoved w s).monitorDisconnectedWindows o =
      (alGet s.monitorDisconnectedWindows o).map
        (fun l => l.filter (fun v => !(decide (v = w)))) := by
    intro o
    unfold onWindowRemoved
    exact alGet_mapVal _ _ o
  refine ⟨?_, ?_, ?_, ?_⟩
  · exact alGet_alDelete_self _ _
  · intro o l hl
    rw [hmdw o] at hl
    cases hs : alGet s.monitorDisconnectedWindows o with
    | none => rw [hs] at hl; exact absurd hl (by simp)
    | some l0 =>
      rw [hs] at hl
      simp only [Option.map_some'] at hl
      intro hw
      rw [← Option.some_inj.mp hl] at hw
      rcases List.mem_filter.mp hw with ⟨-, hdec⟩
      simp at hdec
  · intro v hv
    exact alGet_alDelete_ne _ _ _ hv
  · intro o v hv
    rw [hmdw o]
    cases hs : alGet s.monitorDisconnectedWindows o with
    | none => simp
    | some l0 =>
      simp only [Option.map_some', Option.getD_some]
      constructor
      · intro h
        exact (List.mem_filter.mp h).1
      · intro h
        exact List.mem_filter.mpr ⟨h, by simp [hv]⟩

/-- Witness for C8: removing window `1` from `twoSavesState` (saved states
for two outputs, stranded under two outputs) clears it everywhere while
window `2` keeps its stranded membership under `"A"`. -/
theorem window_removed_cleanup_witness :
    alGet (onWindowRemoved 1 twoSavesState).windowsSavedStates 1 = none
    ∧ ((2 : Window) ≠ 1
      ∧ ((2 : Window) ∈ (alGet (onWindowRemoved 1
            twoSavesState).monitorDisconnectedWindows "A").getD [] ↔
          (2 : Window) ∈ (alGet twoSavesState.monitorDisconnectedWindows "A").getD [])) :=
  ⟨(window_removed_cleanup 1 twoSavesState).1,
   ⟨by decide, (window_removed_cleanup 1 twoSavesState).2.2.2 "A" 2 (by decide)⟩⟩

/-- Claim C5: the disconnect-time relative transform followed by the load-time
absolute transform with the same rectangle is the identity; with a new
rectangle it shifts by the difference of origins; in particular a window saved
at absolute `(100, 50)` on `rect {0,0,1920,1080}` is restored at `(2020, 50)`
when the output reloads at `rect {1920,0,1920,1080}`. -/
theorem coordinate_round_trip :
    (∀ (R : MonitorRect) (ws : WindowState), restoreAbsolute R (saveRelative R ws) = ws)
    ∧ (∀ (R R2 : MonitorRect) (ws : WindowState),
        restoreAbsolute R2 (saveRelative R ws) =
          { x := ws.x - R.x + R2.x, y := ws.y - R.y + R2.y, payload := ws.payload })
    ∧ ((onMonitorLoaded sampleEnv "HDMI-1" rectB
          (onOutputDisconnected sampleEnv "HDMI-1" rectA 1000 initialState)).2.map
        (fun t => (t.1, t.2.1.x, t.2.1.y)) = [(1, 2020, 50)]) := by
  refine ⟨?_, ?_, ?_⟩
  · intro R ws
    cases ws
    simp [saveRelative, restoreAbsolute]
  · intro R R2 ws
    cases ws
    simp [saveRelative, restoreAbsolute]
  · decide

/-! ### Claim C1: the no-empty-inner-map invariant -/

theorem recordSavedState_nonEmpty {wss : List (Window × SavedStates)} {w : Window}
    {output : Output} {e : SavedStateEntry} (h : ∀ p ∈ wss, p.2 ≠ []) :
    ∀ p ∈ recordSavedState wss w output e, p.2 ≠ [] := by
  intro p hp
  unfold recordSavedState at hp
  by_cases hg : (alGet ((alGet wss w).getD []) output).isSome
  · simp only [hg, if_true] at hp
    exact h p hp
  · simp only [hg, Bool.false_eq_true, if_false] at hp
    rcases mem_alSet hp with rfl | hp'
    · exact alSet_ne_nil _ _ _
    · exact h p hp'

theorem disconnectStep_nonEmpty (env : Env) (output : Output) (rect : MonitorRect)
    (time : Time) (s : TrackerState) (w : Window) (h : NonEmptyStates s) :
    NonEmptyStates (disconnectStep env output rect time s w) := by
  rw [disconnectStep_eq]
  by_cases h1 : env.isInside w rect = true
  · simp only [h1, if_true]
    intro p hp
    simp only at hp
    by_cases h2 : (s.rememberState && env.allowsMove w) = true
    · simp only [h2, if_true] at hp
      cases hs : env.save w with
      | none => rw [hs] at hp; exact h p hp
      | some ws0 =>
        rw [hs] at hp
        exact recordSavedState_nonEmpty h p hp
    · simp only [h2, Bool.false_eq_true, if_false] at hp
      exact h p hp
  · simp only [h1, Bool.false_eq_true, if_false]
    exact h

theorem onOutputDisconnected_nonEmpty (env : Env) (output : Output) (rect : MonitorRect)
    (time : Time) (s : TrackerState) (h : NonEmptyStates s) :
    NonEmptyStates (onOutputDisconnected env output rect time s) := by
  unfold onOutputDisconnected
  exact foldl_preserve _ (fun t u ht => disconnectStep_nonEmpty env output rect time t u ht)
    env.windows _ h

/-- Claim C1 counterexample: the invariant "a window has an entry in
`WindowsSavedStates` only if its inner map is non-empty" fails on a reachable
state: disconnecting output `"A"` and then loading `"A"` leaves window `1`
mapped to an empty inner map. -/
theorem saved_states_nonempty_counterexample :
    ¬ (∀ s : TrackerState, Reachable s → NonEmptyStates s) := by
  intro h
  have hr : Reachable (onMonitorLoaded sampleEnv "A" rectB
      (onOutputDisconnected sampleEnv "A" rectA 1000 initialState)).1 :=
    Reachable.loaded _ _ _ _ (Reachable.disconnected _ _ _ _ _ Reachable.init)
  exact absurd (h _ hr) (by decide)

/-- Claim C1 (amended): the no-empty-inner-map invariant holds initially and is
preserved by `onOutputDisconnected`, `onOutputConnected`, `onMonitorUnloaded`,
`onWindowRemoved` and `onRememberStateChange`; `onMonitorLoaded` is the one
operation that can break it, by keeping a window whose last pending state it
removed. -/
theorem saved_states_nonempty_invariant (s : TrackerState) (h : NonEmptyStates s) :
    NonEmptyStates initialState
    ∧ (∀ env output rect time, NonEmptyStates (onOutputDisconnected env output rect time s))
    ∧ (∀ output rect, NonEmptyStates (onOutputConnected output rect s))
    ∧ (∀ env output rect, NonEmptyStates (onMonitorUnloaded env output rect s).1)
    ∧ (∀ w, NonEmptyStates (onWindowRemoved w s))
    ∧ (∀ b, NonEmptyStates (onRememberStateChange b s)) := by
  refine ⟨?_, ?_, ?_, ?_, ?_, ?_⟩
  · intro p hp
    simp [initialState] at hp
  · intro env output rect time
    exact onOutputDisconnected_nonEmpty env output rect time s h
  · intro output rect
    exact h
  · intro env output rect
    unfold onMonitorUnloaded
    cases alGet s.monitorDisconnectedWindows output with
    | none => exact h
    | some l => exact h
  · intro w
    intro p hp
    unfold onWindowRemoved at hp
    simp only at hp
    exact h p (List.mem_of_mem_filter hp)
  · intro b
    cases b with
    | false =>
      intro p hp
      simp [onRememberStateChange] at hp
    | true => exact h

/-- Witness for the C1 invariant-preservation theorem at a concrete state. -/
theorem saved_states_nonempty_invariant_witness :
    NonEmptyStates twoSavesState
    ∧ NonEmptyStates (onOutputDisconnected sampleEnv "A" rectA 5 twoSavesState) :=
  ⟨by decide,
   (saved_states_nonempty_invariant twoSavesState (by decide)).2.1 sampleEnv "A" rectA 5⟩

/-! ### Claims C4 and C6 -/

theorem onOutputDisconnected_def (env : Env) (output : Output) (rect : MonitorRect)
    (time : Time) (s : TrackerState) :
    onOutputDisconnected env output rect time s =
      env.windows.foldl (disconnectStep env output rect time)
        { s with monitorDisconnectedWindows :=
            alSet s.monitorDisconnectedWindows output [] } := rfl

/-- Claim C4: if a window already has a pending saved state for `output`, a new
`onOutputDisconnected` of the same output keeps the existing entry (state and
timestamp) unchanged. -/
theorem first_capture_wins (env : Env) (output : Output) (rect : MonitorRect)
    (time : Time) (s : TrackerState) (w : Window) (e : SavedStateEntry)
    (h : getEntry s.windowsSavedStates w output = some e) :
    getEntry (onOutputDisconnected env output rect time s).windowsSavedStates w output
      = some e := by
  rw [onOutputDisconnected_def]
  exact foldl_preserve _
    (fun t u ht => disconnectStep_getEntry_some env output rect time t u w e ht)
    env.windows _ h

/-- Witness for C4: the entry of window `1` for output `"A"` in
`twoSavesState` survives a second disconnect of `"A"` at time `99`. -/
theorem first_capture_wins_witness :
    getEntry twoSavesState.windowsSavedStates 1 "A" = some ⟨⟨10, 20, 0⟩, 1⟩
    ∧ getEntry (onOutputDisconnected sampleEnv "A" rectA 99
        twoSavesState).windowsSavedStates 1 "A" = some ⟨⟨10, 20, 0⟩, 1⟩ :=
  ⟨by decide,
   first_capture_wins sampleEnv "A" rectA 99 twoSavesState 1 ⟨⟨10, 20, 0⟩, 1⟩ (by decide)⟩

theorem disconnect_fold_mdwGet (env : Env) (output : Output) (rect : MonitorRect)
    (time : Time) (l : List Window) :
    ∀ (t : TrackerState) (cur : List Window),
      alGet t.monitorDisconnectedWindows output = some cur →
      alGet ((l.foldl (disconnectStep env output rect time) t).monitorDisconnectedWindows)
          output =
        some (l.foldl (fun c u => if env.isInside u rect then setAdd c u else c) cur) := by
  induction l with
  | nil =>
    intro t cur h
    simpa using h
  | cons u rest ih =>
    intro t cur h
    simp only [List.foldl_cons]
    by_cases hu : env.isInside u rect = true
    · rw [if_pos hu]
      apply ih
      rw [disconnectStep_mdw, if_pos hu, alGet_alSet_self, h]
      rfl
    · rw [if_neg hu]
      apply ih
      rw [disconnectStep_mdw, if_neg hu]
      exact h

theorem mem_strandedFold (env : Env) (rect : MonitorRect) (l : List Window) :
    ∀ (cur : List Window) (v : Window),
      v ∈ l.foldl (fun c u => if env.isInside u rect then setAdd c u else c) cur ↔
        v ∈ cur ∨ (v ∈ l ∧ env.isInside v rect = true) := by
  induction l with
  | nil =>
    intro cur v
    simp
  | cons u rest ih =>
    intro cur v
    simp only [List.foldl_cons]
    by_cases hu : env.isInside u rect = true
    · rw [if_pos hu, ih, mem_setAdd]
      constructor
      · rintro ((hv | rfl) | ⟨hv, hin⟩)
        · exact Or.inl hv
        · exact Or.inr ⟨List.mem_cons_self _ _, hu⟩
        · exact Or.inr ⟨List.mem_cons_of_mem _ hv, hin⟩
      · rintro (hv | ⟨hv, hin⟩)
        · exact Or.inl (Or.inl hv)
        · rcases List.mem_cons.mp hv with rfl | hv'
          · exact Or.inl (Or.inr rfl)
          · exact Or.inr ⟨hv', hin⟩
    · rw [if_neg hu, ih]
      constructor
      · rintro (hv | ⟨hv, hin⟩)
        · exact Or.inl hv
        · exact Or.inr ⟨List.mem_cons_of_mem _ hv, hin⟩
      · rintro (hv | ⟨hv, hin⟩)
        · exact Or.inl hv
        · rcases List.mem_cons.mp hv with rfl | hv'
          · exact absurd hin hu
          · exact Or.inr ⟨hv', hin⟩

/-- Claim C6: after `onOutputDisconnected`, the output has a (fresh) stranded set,
and it contains exactly the windows whose position lies inside the rectangle —
independent of `rememberState`, movability, and capture success. -/
theorem stranded_set_postcondition (env : Env) (output : Output) (rect : MonitorRect)
    (time : Time) (s : TrackerState) :
    (alGet (onOutputDisconnected env output rect time s).monitorDisconnectedWindows
        output).isSome = true
    ∧ ∀ v, (v ∈ (alGet (onOutputDisconnected env output rect time
          s).monitorDisconnectedWindows output).getD [] ↔
        v ∈ env.windows ∧ env.isInside v rect = true) := by
  have h0 : alGet (alSet s.monitorDisconnectedWindows output []) output = some [] :=
    alGet_alSet_self _ _ _
  have hfold := disconnect_fold_mdwGet env output rect time env.windows
    { s with monitorDisconnectedWindows := alSet s.monitorDisconnectedWindows output [] }
    [] h0
  rw [onOutputDisconnected_def, hfold]
  constructor
  · rfl
  · intro v
    simpa using mem_strandedFold env rect env.windows [] v

/-! ### Lemmas on `onMonitorLoaded`, and claim C3 -/

theorem onMonitorLoaded_fst (env : Env) (output : Output) (rect : MonitorRect)
    (s : TrackerState) :
    (onMonitorLoaded env output rect s).1.windowsSavedStates =
      s.windowsSavedStates.map (fun p => (p.1, loadedInner output p.2)) := rfl

theorem onMonitorLoaded_snd (env : Env) (output : Output) (rect : MonitorRect)
    (s : TrackerState) :
    (onMonitorLoaded env output rect s).2 =
      s.windowsSavedStates.filterMap (fun p => loadedRestore env output rect p.1 p.2) := rfl

theorem onMonitorLoaded_wss_get (env : Env) (output : Output) (rect : MonitorRect)
    (s : TrackerState) (w : Window) :
    alGet (onMonitorLoaded env output rect s).1.windowsSavedStates w =
      (alGet s.windowsSavedStates w).map (loadedInner output) := by
  rw [onMonitorLoaded_fst]
  exact alGet_mapVal _ _ _

theorem loadedRestore_eq_none {env : Env} {output : Output} {rect : MonitorRect}
    {u : Window} {inner : SavedStates} (h : alGet inner output = none) :
    loadedRestore env output rect u inner = none := by
  unfold loadedRestore
  rw [h]
  rfl

theorem loadedRestore_eq_some {env : Env} {output : Output} {rect : MonitorRect}
    {u : Window} {inner : SavedStates} {state : SavedStateEntry}
    (h : alGet inner output = some state) :
    loadedRestore env output rect u inner =
      some (u, restoreAbsolute rect state.windowState,
        env.restoreOk u (restoreAbsolute rect state.windowState) rect) := by
  unfold loadedRestore
  rw [h]
  rfl

theorem restores_filter_not_mem (env : Env) (output : Output) (rect : MonitorRect)
    (w : Window) :
    ∀ (l : List (Window × SavedStates)), w ∉ l.map Prod.fst →
      (l.filterMap (fun p => loadedRestore env output rect p.1 p.2)).filter
        (fun t => decide (t.1 = w)) = [] := by
  intro l
  induction l with
  | nil => intro _; rfl
  | cons p rest ih =>
    intro h
    simp only [List.map_cons, List.mem_cons] at h
    push_neg at h
    rw [List.filterMap_cons]
    cases halg : alGet p.2 output with
    | none =>
      rw [loadedRestore_eq_none halg]
      exact ih h.2
    | some st =>
      rw [loadedRestore_eq_some halg, List.filter_cons]
      have hne : (decide ((p.1 : Window) = w)) = false := by
        simp [Ne.symm h.1]
      simp only [hne, Bool.false_eq_true, if_false]
      exact ih h.2

theorem restores_filter_eq (env : Env) (output : Output) (rect : MonitorRect) :
    ∀ (l : List (Window × SavedStates)), (l.map Prod.fst).Nodup →
      ∀ (w : Window) (inner : SavedStates), alGet l w = some inner →
      (l.filterMap (fun p => loadedRestore env output rect p.1 p.2)).filter
          (fun t => decide (t.1 = w)) =
        (loadedRestore env output rect w inner).toList := by
  intro l
  induction l with
  | nil =>
    intro _ w inner h
    simp [alGet] at h
  | cons p rest ih =>
    intro hnd w inner h
    obtain ⟨k₀, inner₀⟩ := p
    simp only [List.map_cons, List.nodup_cons] at hnd
    rw [List.filterMap_cons]
    by_cases hk : k₀ = w
    · subst hk
      have hi : inner₀ = inner := by simpa [alGet] using h
      subst hi
      cases halg : alGet inner₀ output with
      | none =>
        rw [loadedRestore_eq_none halg,
          restores_filter_not_mem env output rect k₀ rest hnd.1]
        rfl
      | some st =>
        rw [loadedRestore_eq_some halg, List.filter_cons,
          restores_filter_not_mem env output rect k₀ rest hnd.1]
        simp
    · have h' : alGet rest w = some inner := by
        simpa [alGet, hk] using h
      cases halg : alGet inner₀ output with
      | none =>
        rw [loadedRestore_eq_none halg]
        exact ih hnd.2 w inner h'
      | some st =>
        rw [loadedRestore_eq_some halg, List.filter_cons]
        have hne : (decide ((k₀ : Window) = w)) = false := by simp [hk]
        simp only [hne, Bool.false_eq_true, if_false]
        exact ih hnd.2 w inner h'

/-- Claim C3: on `onMonitorLoaded(output, rect)`, every window with a pending entry
for `output` has that entry removed together with every other entry of
timestamp ≥ it, and exactly one restore is emitted for the window, carrying
the (absolute-transformed) state of the matched entry — never one of the other
removed entries. -/
theorem conflict_resolution (env : Env) (output : Output) (rect : MonitorRect)
    (s : TrackerState) (hnd : (s.windowsSavedStates.map Prod.fst).Nodup)
    (w : Window) (inner : SavedStates) (state : SavedStateEntry)
    (hw : alGet s.windowsSavedStates w = some inner)
    (hst : alGet inner output = some state) :
    alGet (onMonitorLoaded env output rect s).1.windowsSavedStates w =
      some ((alDelete inner output).filter (fun q => decide (q.2.time < state.time)))
    ∧ (onMonitorLoaded env output rect s).2.filter (fun t => decide (t.1 = w)) =
        [(w, restoreAbsolute rect state.windowState,
          env.restoreOk w (restoreAbsolute rect state.windowState) rect)] := by
  constructor
  · rw [onMonitorLoaded_wss_get, hw]
    simp only [Option.map_some']
    unfold loadedInner
    rw [hst]
  · rw [onMonitorLoaded_snd,
      restores_filter_eq env output rect s.windowsSavedStates hnd w inner hw,
      loadedRestore_eq_some hst]
    rfl

/-- Witness for C3: loading `"A"` on `twoSavesState` removes both the `"A"`
entry (t=1) and the younger `"B"` entry (t=2) of window `1`, and emits exactly
one restore, for the `"A"` state. -/
theorem conflict_resolution_witness :
    ((twoSavesState.windowsSavedStates.map Prod.fst).Nodup
      ∧ alGet twoSavesState.windowsSavedStates 1 = some innerAB
      ∧ alGet innerAB "A" = some ⟨⟨10, 20, 0⟩, 1⟩)
    ∧ (alGet (onMonitorLoaded sampleEnv "A" rectA twoSavesState).1.windowsSavedStates 1 =
        some ((alDelete innerAB "A").filter (fun q => decide (q.2.time < (1 : Time))))
      ∧ (onMonitorLoaded sampleEnv "A" rectA twoSavesState).2.filter
          (fun t => decide (t.1 = 1)) =
        [(1, restoreAbsolute rectA ⟨10, 20, 0⟩,
          sampleEnv.restoreOk 1 (restoreAbsolute rectA ⟨10, 20, 0⟩) rectA)]) :=
  ⟨⟨by decide, by decide, by decide⟩,
   conflict_resolution sampleEnv "A" rectA twoSavesState (by decide) 1 innerAB
     ⟨⟨10, 20, 0⟩, 1⟩ (by decide) (by decide)⟩

/-! ### Claim C2: codec failures are isolated -/

theorem disconnectStep_wss (env : Env) (output : Output) (rect : MonitorRect)
    (time : Time) (s : TrackerState) (w : Window) :
    (disconnectStep env output rect time s w).windowsSavedStates =
      if env.isInside w rect && s.rememberState && env.allowsMove w then
        (match env.save w with
          | some ws0 =>
            recordSavedState s.windowsSavedStates w output ⟨saveRelative rect ws0, time⟩
          | none => s.windowsSavedStates)
      else s.windowsSavedStates := by
  rw [disconnectStep_eq]
  by_cases h1 : env.isInside w rect = true
  · simp only [h1, if_true, Bool.true_and]
  · simp only [h1, Bool.false_eq_true, if_false, Bool.false_and]

theorem recordSavedState_congr {w : Window} {l1 l2 : List (Window × SavedStates)}
    (hagree : ∀ v, v ≠ w → alGet l1 v = alGet l2 v) (u : Window) (hu : u ≠ w)
    (o : Output) (e : SavedStateEntry) :
    ∀ v, v ≠ w → alGet (recordSavedState l1 u o e) v = alGet (recordSavedState l2 u o e) v := by
  intro v hv
  unfold recordSavedState
  rw [← hagree u hu]
  by_cases hg : (alGet ((alGet l1 u).getD []) o).isSome
  · simp only [hg, if_true]
    exact hagree v hv
  · simp only [hg, Bool.false_eq_true, if_false]
    by_cases hvu : v = u
    · subst hvu
      rw [alGet_alSet_self, alGet_alSet_self]
    · rw [alGet_alSet_ne _ _ _ _ hvu, alGet_alSet_ne _ _ _ _ hvu]
      exact hagree v hv

theorem disconnectStep_congr (output : Output) (rect : MonitorRect) (time : Time)
    (w : Window) (env1 env2 : Env)
    (hin : env1.isInside = env2.isInside) (hmv : env1.allowsMove = env2.allowsMove)
    (hsv : ∀ v, v ≠ w → env1.save v = env2.save v) (hw1 : env1.save w = none)
    (t1 t2 : TrackerState)
    (hmdw : t1.monitorDisconnectedWindows = t2.monitorDisconnectedWindows)
    (hrem : t1.rememberState = t2.rememberState)
    (hwss : ∀ v, v ≠ w → alGet t1.windowsSavedStates v = alGet t2.windowsSavedStates v)
    (u : Window) :
    (disconnectStep env1 output rect time t1 u).monitorDisconnectedWindows =
        (disconnectStep env2 output rect time t2 u).monitorDisconnectedWindows
    ∧ (disconnectStep env1 output rect time t1 u).rememberState =
        (disconnectStep env2 output rect time t2 u).rememberState
    ∧ ∀ v, v ≠ w →
        alGet (disconnectStep env1 output rect time t1 u).windowsSavedStates v =
          alGet (disconnectStep env2 output rect time t2 u).windowsSavedStates v := by
  refine ⟨?_, ?_, ?_⟩
  · rw [disconnectStep_mdw, disconnectStep_mdw, hin, hmdw]
  · rw [disconnectStep_rememberState, disconnectStep_rememberState, hrem]
  · intro v hv
    rw [disconnectStep_wss, disconnectStep_wss, hin, hrem, hmv]
    by_cases hc : (env2.isInside u rect && t2.rememberState && env2.allowsMove u) = true
    · simp only [hc, if_true]
      by_cases hu : u = w
      · subst hu
        rw [hw1]
        cases hs2 : env2.save u with
        | none => exact hwss v hv
        | some ws0 =>
          rw [recordSavedState_alGet_ne _ _ _ _ _ hv]
          exact hwss v hv
      · rw [← hsv u hu]
        cases hs : env1.save u with
        | none => exact hwss v hv
        | some ws0 => exact recordSavedState_congr hwss u hu output _ v hv
    · simp only [hc, Bool.false_eq_true, if_false]
      exact hwss v hv

theorem disconnect_fold_congr (output : Output) (rect : MonitorRect) (time : Time)
    (w : Window) (env1 env2 : Env)
    (hin : env1.isInside = env2.isInside) (hmv : env1.allowsMove = env2.allowsMove)
    (hsv : ∀ v, v ≠ w → env1.save v = env2.save v) (hw1 : env1.save w = none) :
    ∀ (l : List Window) (t1 t2 : TrackerState),
      t1.monitorDisconnectedWindows = t2.monitorDisconnectedWindows →
      t1.rememberState = t2.rememberState →
      (∀ v, v ≠ w → alGet t1.windowsSavedStates v = alGet t2.windowsSavedStates v) →
      (l.foldl (disconnectStep env1 output rect time) t1).monitorDisconnectedWindows =
          (l.foldl (disconnectStep env2 output rect time) t2).monitorDisconnectedWindows
      ∧ ∀ v, v ≠ w →
          alGet (l.foldl (disconnectStep env1 output rect time) t1).windowsSavedStates v =
            alGet (l.foldl (disconnectStep env2 output rect time) t2).windowsSavedStates v := by
  intro l
  induction l with
  | nil =>
    intro t1 t2 h1 _ h3
    exact ⟨h1, h3⟩
  | cons u rest ih =>
    intro t1 t2 h1 h2 h3
    simp only [List.foldl_cons]
    obtain ⟨hm, hr, hw⟩ :=
      disconnectStep_congr output rect time w env1 env2 hin hmv hsv hw1 t1 t2 h1 h2 h3 u
    exact ih _ _ hm hr hw

theorem disconnectStep_wssGet_self_none (env : Env) (output : Output) (rect : MonitorRect)
    (time : Time) (s : TrackerState) (u w : Window) (a : Option SavedStates)
    (hwn : env.save w = none) (h : alGet s.windowsSavedStates w = a) :
    alGet (disconnectStep env output rect time s u).windowsSavedStates w = a := by
  by_cases hu : u = w
  · subst hu
    rw [disconnectStep_wss]
    by_cases hc : (env.isInside u rect && s.rememberState && env.allowsMove u) = true
    · simp only [hc, if_true]
      rw [hwn]
      exact h
    · simp only [hc, Bool.false_eq_true, if_false]
      exact h
  · rw [disconnectStep_wss_alGet_ne env output rect time s u w (fun hh => hu hh.symm)]
    exact h

theorem onMonitorLoaded_restores_proj (env1 env2 : Env) (output : Output)
    (rect : MonitorRect) (s : TrackerState) :
    (onMonitorLoaded env1 output rect s).2.map (fun t => (t.1, t.2.1)) =
      (onMonitorLoaded env2 output rect s).2.map (fun t => (t.1, t.2.1)) := by
  rw [onMonitorLoaded_snd, onMonitorLoaded_snd]
  induction s.windowsSavedStates with
  | nil => rfl
  | cons p rest ih =>
    rw [List.filterMap_cons, List.filterMap_cons]
    cases halg : alGet p.2 output with
    | none =>
      rw [loadedRestore_eq_none halg, loadedRestore_eq_none halg]
      exact ih
    | some st =>
      rw [@loadedRestore_eq_some env1 output rect p.1 p.2 st halg,
        @loadedRestore_eq_some env2 output rect p.1 p.2 st halg]
      simp only [List.map_cons]
      rw [ih]

/-- Claim C2: a codec failure for one window is isolated.  A failing `save` (caught
`CaptureError`) leaves `WindowsSavedStates` untouched for that window, while
the stranded sets and the saved states of every other window come out exactly as
if the capture had succeeded; a failing `restore` (caught `RestoreError`)
cannot influence the tracker state or the restore calls of other windows at
all, since the handler ignores the restore outcome. -/
theorem codec_failure_isolation :
    (∀ (env1 env2 : Env) (output : Output) (rect : MonitorRect) (time : Time)
        (s : TrackerState) (w : Window),
      env1.windows = env2.windows →
      env1.isInside = env2.isInside →
      env1.allowsMove = env2.allowsMove →
      (∀ v, v ≠ w → env1.save v = env2.save v) →
      env1.save w = none →
      (onOutputDisconnected env1 output rect time s).monitorDisconnectedWindows =
          (onOutputDisconnected env2 output rect time s).monitorDisconnectedWindows
      ∧ (∀ v, v ≠ w →
          alGet (onOutputDisconnected env1 output rect time s).windowsSavedStates v =
            alGet (onOutputDisconnected env2 output rect time s).windowsSavedStates v)
      ∧ alGet (onOutputDisconnected env1 output rect time s).windowsSavedStates w =
          alGet s.windowsSavedStates w)
    ∧ (∀ (env1 env2 : Env) (output : Output) (rect : MonitorRect) (s : TrackerState),
      (onMonitorLoaded env1 output rect s).1 = (onMonitorLoaded env2 output rect s).1
      ∧ (onMonitorLoaded env1 output rect s).2.map (fun t => (t.1, t.2.1)) =
          (onMonitorLoaded env2 output rect s).2.map (fun t => (t.1, t.2.1))) := by
  constructor
  · intro env1 env2 output rect time s w hwl hin hmv hsv hw1
    have hcongr := disconnect_fold_congr output rect time w env1 env2 hin hmv hsv hw1
      env2.windows
      { s with monitorDisconnectedWindows := alSet s.monitorDisconnectedWindows output [] }
      { s with monitorDisconnectedWindows := alSet s.monitorDisconnectedWindows output [] }
      rfl rfl (fun _ _ => rfl)
    have hself : alGet (onOutputDisconnected env1 output rect time s).windowsSavedStates w =
        alGet s.windowsSavedStates w := by
      rw [onOutputDisconnected_def]
      exact foldl_preserve _
        (fun t u ht => disconnectStep_wssGet_self_none env1 output rect time t u w _ hw1 ht)
        env1.windows _ rfl
    rw [onOutputDisconnected_def, onOutputDisconnected_def, hwl] at *
    exact ⟨hcongr.1, hcongr.2, hself⟩
  · intro env1 env2 output rect s
    exact ⟨rfl, onMonitorLoaded_restores_proj env1 env2 output rect s⟩

/-- Witness for the hypotheses of C2: `sampleEnvFailingSave` fails the capture of
window `1` but agrees with `sampleEnv` elsewhere, and the disconnect handler
then leaves the saved states of window `1` untouched. -/
theorem codec_failure_isolation_witness :
    (sampleEnvFailingSave.windows = sampleEnv.windows
      ∧ sampleEnvFailingSave.save 1 = none)
    ∧ alGet (onOutputDisconnected sampleEnvFailingSave "A" rectA 7
        initialState).windowsSavedStates 1 = alGet initialState.windowsSavedStates 1 :=
  ⟨⟨rfl, rfl⟩,
   (codec_failure_isolation.1 sampleEnvFailingSave sampleEnv "A" rectA 7 initialState 1
      rfl rfl rfl (fun v hv => by simp [sampleEnvFailingSave, hv]) rfl).2.2⟩

/-! ### Claim C10: one timestamp per disconnect event -/

theorem disconnectStep_getEntry_new (env : Env) (output : Output) (rect : MonitorRect)
    (time : Time) (s : TrackerState) (u : Window) (w : Window) (o : Output)
    (e : SavedStateEntry)
    (h : getEntry (disconnectStep env output rect time s u).windowsSavedStates w o = some e) :
    getEntry s.windowsSavedStates w o = some e ∨ e.time = time := by
  unfold getEntry at h
  rw [disconnectStep_wss] at h
  by_cases hc : (env.isInside u rect && s.rememberState && env.allowsMove u) = true
  · simp only [hc, if_true] at h
    cases hs : env.save u with
    | none =>
      rw [hs] at h
      exact Or.inl h
    | some ws0 =>
      rw [hs] at h
      rcases recordSavedState_getEntry_cases _ _ _ _ _ _ _ h with h' | ⟨-, -, he⟩
      · exact Or.inl h'
      · right
        rw [he]
  · simp only [hc, Bool.false_eq_true, if_false] at h
    exact Or.inl h

/-- Claim C10: the timestamp is read once per disconnect event, so every entry that
`onOutputDisconnected` adds carries the timestamp of that event; and because the
load-time conflict rule drops entries with timestamp ≥ the restored one,
restoring one of several equal-timestamp saves discards the others for the
same window. -/
theorem same_event_timestamp :
    (∀ (env : Env) (output : Output) (rect : MonitorRect) (time : Time)
        (s : TrackerState) (w : Window) (o : Output) (e : SavedStateEntry),
      getEntry (onOutputDisconnected env output rect time s).windowsSavedStates w o = some e →
      getEntry s.windowsSavedStates w o = some e ∨ e.time = time)
    ∧ (∀ (env : Env) (outA outB : Output) (rect : MonitorRect) (s : TrackerState)
        (w : Window) (inner : SavedStates) (eA eB : SavedStateEntry),
      (inner.map Prod.fst).Nodup →
      alGet s.windowsSavedStates w = some inner →
      alGet inner outA = some eA →
      alGet inner outB = some eB →
      eB.time = eA.time →
      getEntry (onMonitorLoaded env outA rect s).1.windowsSavedStates w outB = none) := by
  constructor
  · intro env output rect time s w o e h
    rw [onOutputDisconnected_def] at h
    revert h
    refine foldl_preserve
      (P := fun (t : TrackerState) => getEntry t.windowsSavedStates w o = some e →
        getEntry s.windowsSavedStates w o = some e ∨ e.time = time) _ ?_ env.windows _ ?_
    · intro t u ht hstep
      rcases disconnectStep_getEntry_new env output rect time t u w o e hstep with h' | h'
      · exact ht h'
      · exact Or.inr h'
    · exact fun h => Or.inl h
  · intro env outA outB rect s w inner eA eB hnd hw hA hB htime
    unfold getEntry
    rw [onMonitorLoaded_wss_get, hw]
    simp only [Option.map_some', Option.getD_some]
    unfold loadedInner
    rw [hA]
    by_cases hBA : outB = outA
    · subst hBA
      exact alGet_filter_none _ (alGet_alDelete_self _ _)
    · rw [alGet_filter_of_nodup (alDelete_keys_nodup hnd outA)]
      rw [alGet_alDelete_ne _ _ _ hBA, hB]
      simp [htime]

/-- Witness for C10: in `twinSavesState`, window `2` has equal-timestamp saves
for `"A"` and `"B"`; a disconnect-produced entry carries the event time, and
loading `"A"` discards the `"B"` entry. -/
theorem same_event_timestamp_witness :
    (getEntry (onOutputDisconnected sampleEnv "C" rectA 42
        twinSavesState).windowsSavedStates 2 "C" = some ⟨⟨1 - 0, 2 - 0, 7⟩, 42⟩ →
      getEntry twinSavesState.windowsSavedStates 2 "C" = some ⟨⟨1 - 0, 2 - 0, 7⟩, 42⟩
        ∨ (42 : Time) = 42)
    ∧ ((twinSavesInner.map Prod.fst).Nodup
      ∧ alGet twinSavesState.windowsSavedStates 2 = some twinSavesInner
      ∧ alGet twinSavesInner "A" = some ⟨⟨1, 2, 0⟩, 5⟩
      ∧ alGet twinSavesInner "B" = some ⟨⟨3, 4, 0⟩, 5⟩)
    ∧ getEntry (onMonitorLoaded sampleEnv "A" rectB
        twinSavesState).1.windowsSavedStates 2 "B" = none :=
  ⟨same_event_timestamp.1 sampleEnv "C" rectA 42 twinSavesState 2 "C" ⟨⟨1 - 0, 2 - 0, 7⟩, 42⟩,
   ⟨by decide, by decide, by decide, by decide⟩,
   same_event_timestamp.2 sampleEnv "A" "B" rectB twinSavesState 2 twinSavesInner
     ⟨⟨1, 2, 0⟩, 5⟩ ⟨⟨3, 4, 0⟩, 5⟩ (by decide) (by decide) (by decide) (by decide) rfl⟩

end BackToMonitor
